import Mathlib

/-!
Shallow embedding of `src/maasserver/clusterrpc/osystems.py`: the fan-out
RPC aggregation layer of MAAS.  Pure Python functions become Lean
functions; each RPC response is a structural value; the generator-based
failure suppression becomes a recursion over lists of `Outcome`s.
-/

namespace Osystems

/-- An RPC error kind, as enumerated in the spec's error taxonomy and the
docstrings of `osystems.py` (NoConnectionsAvailable, NoSuchOperatingSystem,
NotImplementedError, TimeoutError, plus opaque transport failures). -/
inductive RpcError where
  | NoConnectionsAvailable
  | NoSuchOperatingSystem
  | NotImplementedError
  | Timeout (bound : Nat)
  | TransportFailure
deriving DecidableEq, Repr

/-- The per-connection result of one fan-out call: either a success payload
or a `twisted.python.failure.Failure` marker carrying an error kind. -/
inductive Outcome (α : Type) where
  | Success (payload : α)
  | Failure (errorKind : RpcError)
deriving DecidableEq, Repr

/-- The payload of an `Outcome`, when it is a `Success`. -/
def Outcome.payload? {α : Type} : Outcome α → Option α
  | .Success p => some p
  | .Failure _ => none

/-- `suppress_failures` (osystems.py lines 64-71): iterate over the
responses, yielding every response that is not a `Failure` instance. -/
def suppress_failures {α : Type} : List (Outcome α) → List α
  | [] => []
  | .Success p :: rest => p :: suppress_failures rest
  | .Failure _ :: rest => suppress_failures rest

/-- One release entry of an osystem item: a JSON object with a `name`
key, a `title` key, and arbitrary further key/value pairs (`rest`). -/
structure Release where
  name : String
  title : String
  rest : List (String × String)
deriving DecidableEq, Repr

/-- One osystem item as returned by the `ListOperatingSystems` RPC: a JSON
object with a `name` key, a `releases` list, and arbitrary further
key/value pairs (`rest`).  Equality is full structural equality, as for
Python dicts. -/
structure OSystem where
  name : String
  releases : List Release
  rest : List (String × String)
deriving DecidableEq, Repr

/-- `BOOT_RESOURCE_TYPE` (maasserver.enum, referenced by osystems.py but
not under src): the type tag of a `BootResource` row. -/
inductive BOOT_RESOURCE_TYPE where
  | SYNCED
  | GENERATED
  | UPLOADED
deriving DecidableEq, Repr

/-- A `BootResource` row as used by `fix_custom_osystem_release_titles`:
its resource type, its name, and its `extra` JSON object field. -/
structure BootResource where
  rtype : BOOT_RESOURCE_TYPE
  name : String
  extra : List (String × String)
deriving DecidableEq, Repr

/-- Key lookup in a JSON object field: Python's `obj["k"]` guarded by
`"k" in obj` collapses to an optional lookup of the first matching key. -/
def lookupKey (obj : List (String × String)) (k : String) : Option String :=
  (obj.find? (fun p => p.1 = k)).map (fun p => p.2)

/-- Modelled from the spec: `get_one` (maasserver.utils.orm, not under
src) returns the sole element of a query set, or none when the set is
empty.  The real function asserts that at most one element exists; the
theorems below restrict to resource lists whose uploaded names are
distinct, where that assertion cannot fire. -/
def get_one {α : Type} : List α → Option α
  | [a] => some a
  | _ => none

/-- `get_uploaded_resource_with_name` (osystems.py lines 46-49): the
`BootResource` from `resources` that has the given `name`. -/
def get_uploaded_resource_with_name (resources : List BootResource)
    (name : String) : Option BootResource :=
  get_one (resources.filter (fun r => r.name = name))

/-- The loop body of `fix_custom_osystem_release_titles` (osystems.py
lines 56-60): if an uploaded resource with the release's name exists and
its `extra` object has a `title` key, overwrite the release's title with
it. -/
def fix_release (custom_resources : List BootResource)
    (release : Release) : Release :=
  match get_uploaded_resource_with_name custom_resources release.name with
  | some resource =>
    match lookupKey resource.extra "title" with
    | some t => { release with title := t }
    | none => release
  | none => release

/-- `fix_custom_osystem_release_titles` (osystems.py lines 52-61): filter
the boot resources to uploaded ones and apply `fix_release` to every
release of the osystem.  The Python updates each release dict in place
and returns the same osystem object; the pure translation rebuilds the
record. -/
def fix_custom_osystem_release_titles (resources : List BootResource)
    (osystem : OSystem) : OSystem :=
  let custom_resources := resources.filter
    (fun r => r.rtype = BOOT_RESOURCE_TYPE.UPLOADED)
  { osystem with
    releases := osystem.releases.map (fix_release custom_resources) }

/-- The `ListOperatingSystems` response shape: an object with an
`osystems` list. -/
structure OSListResponse where
  osystems : List OSystem
deriving DecidableEq, Repr

/-- The dedup-and-emit loop of `gen_all_known_operating_systems`
(osystems.py lines 86-93), over the already-flattened stream of osystem
items.  `seen` models the `defaultdict(list)`: a finite map from name to
the list of recorded items.  The Python appends the osystem dict to
`seen[name]` and then, for name `"custom"`, mutates that same dict in
place through `fix_custom_osystem_release_titles`; hence the value
recorded in `seen` is the emitted (post-fixup) value, which this pure
translation makes explicit. -/
def gen_loop (resources : List BootResource) :
    List OSystem → (String → List OSystem) → List OSystem
  | [], _ => []
  | osystem :: todo, seen =>
    let name := osystem.name
    if osystem ∈ seen name then
      gen_loop resources todo seen
    else
      let emitted :=
        if name = "custom" then
          fix_custom_osystem_release_titles resources osystem
        else osystem
      let seen1 := fun n => if n = name then seen n ++ [emitted] else seen n
      emitted :: gen_loop resources todo seen1

/-- `gen_all_known_operating_systems` (osystems.py lines 74-93): gather
`ListOperatingSystems` from all clients, suppress failures, and run the
dedup-and-emit loop over the concatenated `osystems` lists, starting from
an empty `seen` map. -/
def gen_all_known_operating_systems (resources : List BootResource)
    (responses : List (Outcome OSListResponse)) : List OSystem :=
  gen_loop resources
    ((suppress_failures responses).foldr (fun r acc => r.osystems ++ acc) [])
    (fun _ => [])

/-- The `GetOSReleaseTitle` response shape: an object with a `title`
string. -/
structure TitleResponse where
  title : String
deriving DecidableEq, Repr

/-- `get_os_release_title` (osystems.py lines 96-108): start from the
empty title, take each successful response's title whenever it is
non-empty, and normalize an empty final title to the None sentinel. -/
def get_os_release_title (responses : List (Outcome TitleResponse)) :
    Option String :=
  let title := (suppress_failures responses).foldl
    (fun t r => if r.title ≠ "" then r.title else t) ""
  if title = "" then none else some title

/-- The `ValidateLicenseKey` response shape: an object with an `is_valid`
boolean. -/
structure ValidateResponse where
  is_valid : Bool
deriving DecidableEq, Repr

/-- The accumulation loop of `validate_license_key` (osystems.py lines
224-226), instrumented with the number of loop iterations: the Python
comment insists on going through all responses so they are all marked
handled, so the iteration count is part of the observable behaviour. -/
def validate_loop (acc : Bool) : List ValidateResponse → Bool × Nat
  | [] => (acc, 0)
  | r :: rest =>
    let out := validate_loop (acc || r.is_valid) rest
    (out.1, out.2 + 1)

/-- `validate_license_key` (osystems.py lines 202-227): gather
`ValidateLicenseKey` from all clients, suppress failures, and OR the
`is_valid` fields together starting from `False`. -/
def validate_license_key (responses : List (Outcome ValidateResponse)) :
    Bool :=
  (validate_loop false (suppress_failures responses)).1

/-- Spec-side definition of the first-non-empty-wins reduction, from the
spec's words: the last encountered non-empty string, or none when every
entry is empty or the sequence is empty. -/
def last_nonempty_title (titles : List String) : Option String :=
  titles.reverse.find? (fun s => !(s == ""))

theorem title_foldl_eq (rs : List TitleResponse) (acc : String) :
    rs.foldl (fun t r => if r.title ≠ "" then r.title else t) acc =
      (last_nonempty_title (rs.map TitleResponse.title)).getD acc := by
  induction rs generalizing acc with
  | nil => simp [last_nonempty_title]
  | cons r rest ih =>
    rw [List.foldl_cons, ih]
    simp only [last_nonempty_title, List.map_cons, List.reverse_cons,
      List.find?_append]
    cases hfind :
        (rest.map TitleResponse.title).reverse.find? (fun s => !(s == "")) with
    | some t => simp
    | none =>
      by_cases hr : r.title = ""
      · simp [hr, List.find?]
      · have hp : (!(r.title == "")) = true := by simp [hr]
        simp [List.find?, hp, hr]

/-- C1: `suppress_failures` returns exactly the non-`Failure` elements,
preserving relative input order; its output is never longer than its
input, and the surviving payloads, re-wrapped as `Success`, form a
sublist of the input, so every survivor corresponds positionally to a
`Success` input. -/
theorem c1_suppress_failures_drops_failures_in_order {α : Type}
    (O : List (Outcome α)) :
    suppress_failures O = O.filterMap Outcome.payload? ∧
    (suppress_failures O).length ≤ O.length ∧
    List.Sublist ((suppress_failures O).map Outcome.Success) O := by
  induction O with
  | nil => exact ⟨rfl, Nat.le_refl 0, List.Sublist.refl []⟩
  | cons o rest ih =>
    obtain ⟨ih1, ih2, ih3⟩ := ih
    cases o with
    | Success p =>
      refine ⟨?_, ?_, ?_⟩
      · simp [suppress_failures, List.filterMap_cons, Outcome.payload?, ih1]
      · simpa [suppress_failures] using Nat.succ_le_succ ih2
      · simpa [suppress_failures] using List.Sublist.cons₂ (Outcome.Success p) ih3
    | Failure e =>
      refine ⟨?_, ?_, ?_⟩
      · simp [suppress_failures, List.filterMap_cons, Outcome.payload?, ih1]
      · exact Nat.le_trans ih2 (Nat.le_succ _)
      · exact List.Sublist.cons (Outcome.Failure e) ih3

/-- C3: `get_os_release_title` computes exactly the last encountered
non-empty title among the successful responses, and an empty or all-empty
successful sequence yields the empty result (none). -/
theorem c3_get_os_release_title_last_nonempty
    (responses : List (Outcome TitleResponse)) :
    get_os_release_title responses =
      last_nonempty_title
        ((suppress_failures responses).map TitleResponse.title) := by
  unfold get_os_release_title
  rw [title_foldl_eq]
  cases hfind : last_nonempty_title
      ((suppress_failures responses).map TitleResponse.title) with
  | none => simp
  | some t =>
    have ht : (!(t == "")) = true :=
      List.find?_some (p := fun s => !(s == "")) hfind
    have ht2 : ¬(t = "") := by simpa using ht
    simp [ht2]

theorem validate_loop_eq (l : List ValidateResponse) (acc : Bool) :
    validate_loop acc l =
      (acc || l.any (fun r => r.is_valid), l.length) := by
  induction l generalizing acc with
  | nil => simp [validate_loop]
  | cons r rest ih =>
    simp [validate_loop, ih, Bool.or_assoc]

/-- C4: `validate_license_key` is the logical OR of the successful
`is_valid` answers — true iff at least one of them is true, false on the
empty sequence — and its loop iterates once per successful response, so
the whole input is consumed even after the first true. -/
theorem c4_validate_license_key_or
    (responses : List (Outcome ValidateResponse)) :
    (validate_license_key responses = true ↔
      ∃ r ∈ suppress_failures responses, r.is_valid = true) ∧
    validate_license_key [] = false ∧
    (validate_loop false (suppress_failures responses)).2 =
      (suppress_failures responses).length := by
  refine ⟨?_, rfl, ?_⟩
  · unfold validate_license_key
    rw [validate_loop_eq]
    simp [List.any_eq_true]
  · rw [validate_loop_eq]

/-- C9: `get_os_release_title` never returns the empty string: its result
is either none or a non-empty title, and an input whose successful titles
are all empty (in particular an empty input) is normalized to none. -/
theorem c9_title_never_empty_string
    (responses : List (Outcome TitleResponse)) :
    get_os_release_title responses ≠ some "" ∧
    ((∀ r ∈ suppress_failures responses, r.title = "") →
      get_os_release_title responses = none) := by
  constructor
  · unfold get_os_release_title
    cases h : decide (((suppress_failures responses).foldl
        (fun t r => if r.title ≠ "" then r.title else t) "") = "") with
    | true =>
      have := of_decide_eq_true h
      simp [this]
    | false =>
      have := of_decide_eq_false h
      simp only [this, if_false]
      intro hcontra
      exact this (Option.some.inj hcontra)
  · intro hall
    have hfold : (suppress_failures responses).foldl
        (fun t r => if r.title ≠ "" then r.title else t) "" = "" := by
      rw [title_foldl_eq]
      cases hfind : last_nonempty_title
          ((suppress_failures responses).map TitleResponse.title) with
      | none => rfl
      | some t =>
        have ht : (!(t == "")) = true :=
          List.find?_some (p := fun s => !(s == "")) hfind
        have hmem : t ∈ ((suppress_failures responses).map
            TitleResponse.title).reverse :=
          List.mem_of_find?_eq_some hfind
        rw [List.mem_reverse, List.mem_map] at hmem
        obtain ⟨r, hr, hrt⟩ := hmem
        have : t = "" := by rw [← hrt]; exact hall r hr
        simp [this] at ht
    unfold get_os_release_title
    rw [hfold]
    simp

/-- Closed witness for C9 at a concrete input: one failure and two
successful responses whose titles are all empty yield none. -/
theorem c9_title_never_empty_string_witness :
    (∀ r ∈ suppress_failures
        [Outcome.Success (TitleResponse.mk ""),
         Outcome.Failure (α := TitleResponse) RpcError.TransportFailure,
         Outcome.Success (TitleResponse.mk "")], r.title = "") ∧
    (get_os_release_title
        [Outcome.Success (TitleResponse.mk ""),
         Outcome.Failure RpcError.TransportFailure,
         Outcome.Success (TitleResponse.mk "")] ≠ some "" ∧
     get_os_release_title
        [Outcome.Success (TitleResponse.mk ""),
         Outcome.Failure RpcError.TransportFailure,
         Outcome.Success (TitleResponse.mk "")] = none) :=
  ⟨by decide,
   ⟨(c9_title_never_empty_string _).1,
    (c9_title_never_empty_string _).2 (by decide)⟩⟩

/-- A locally-uploaded boot resource overriding the title of release
`r1` to `B`. -/
def demoResource : BootResource :=
  ⟨BOOT_RESOURCE_TYPE.UPLOADED, "r1", [("title", "B")]⟩

/-- A custom osystem item as an agent reports it, whose sole release
`r1` carries the title `a`. -/
def demoCustomOS : OSystem := ⟨"custom", [⟨"r1", "a", []⟩], []⟩

/-- `demoCustomOS` after the title fixup driven by `demoResource`. -/
def demoFixedOS : OSystem := ⟨"custom", [⟨"r1", "B", []⟩], []⟩

/-- C2: counterexample on the code.  Two agents report the exact same
custom osystem item, yet `gen_all_known_operating_systems` emits it
twice: the entry recorded in `seen` is the object mutated in place by the
title fixup (title `B`), so the second, structurally identical report
(title `a`) no longer matches it and is admitted again.  This contradicts
the function's own docstring, "Exactly matching duplicates are
suppressed". -/
theorem c2_custom_exact_duplicate_reemitted :
    gen_all_known_operating_systems [demoResource]
        [Outcome.Success ⟨[demoCustomOS]⟩, Outcome.Success ⟨[demoCustomOS]⟩] =
      [demoFixedOS, demoFixedOS] ∧
    demoCustomOS ≠ demoFixedOS := by
  constructor
  · rfl
  · decide

/-- The uploaded override title for a given release name, claim-side: the
uploaded boot resource carrying that name, when it exists and its extra
object supplies a `title`. -/
def overrideTitle (resources : List BootResource) (n : String) :
    Option String :=
  ((resources.filter
      (fun r => r.rtype = BOOT_RESOURCE_TYPE.UPLOADED)).find?
    (fun b => b.name = n)).bind
    (fun b => lookupKey b.extra "title")

/-- The per-release substitution described by the claim: replace the
title when an uploaded override record supplies one, otherwise keep the
release unchanged. -/
def overrideRelease (resources : List BootResource) (r : Release) :
    Release :=
  match overrideTitle resources r.name with
  | some t => { r with title := t }
  | none => r

theorem get_one_filter_eq_find? (l : List BootResource) (n : String)
    (hn : (l.map BootResource.name).Nodup) :
    get_one (l.filter (fun r => r.name = n)) =
      l.find? (fun b => b.name = n) := by
  induction l with
  | nil => rfl
  | cons b rest ih =>
    rw [List.map_cons, List.nodup_cons] at hn
    obtain ⟨hb, hrest⟩ := hn
    by_cases hbn : b.name = n
    · have hnone : rest.filter (fun r => decide (r.name = n)) = [] := by
        rw [List.filter_eq_nil_iff]
        intro x hx
        simp only [decide_eq_true_eq]
        intro hxn
        have hmem : x.name ∈ List.map BootResource.name rest :=
          List.mem_map_of_mem _ hx
        rw [hxn, ← hbn] at hmem
        exact hb hmem
      rw [List.filter_cons_of_pos (by simpa using hbn),
        List.find?_cons_of_pos _ (by simpa using hbn), hnone]
      rfl
    · rw [List.filter_cons_of_neg (by simpa using hbn),
        List.find?_cons_of_neg _ (by simpa using hbn)]
      exact ih hrest

/-- C5: when the uploaded boot-resource names are distinct (the database
invariant the real `get_one` asserts), the fixup rewrites each release of
the osystem by exactly the claimed rule — substitute the override's title
when a matching uploaded record supplies one, keep the original title
otherwise — and the dedup loop applies this fixup to a newly admitted
`custom` item before emitting it, recording the admitted entry. -/
theorem c5_custom_fixup_on_admission (resources : List BootResource)
    (os : OSystem) (todo : List OSystem) (seen : String → List OSystem)
    (hn : ((resources.filter
        (fun r => r.rtype = BOOT_RESOURCE_TYPE.UPLOADED)).map
        BootResource.name).Nodup)
    (hc : os.name = "custom")
    (hseen : os ∉ seen os.name) :
    (fix_custom_osystem_release_titles resources os).releases =
      os.releases.map (overrideRelease resources) ∧
    gen_loop resources (os :: todo) seen =
      fix_custom_osystem_release_titles resources os ::
        gen_loop resources todo
          (fun n => if n = os.name then
              seen n ++ [fix_custom_osystem_release_titles resources os]
            else seen n) := by
  constructor
  · unfold fix_custom_osystem_release_titles
    apply List.map_congr_left
    intro r hr
    unfold fix_release get_uploaded_resource_with_name overrideRelease
      overrideTitle
    rw [← get_one_filter_eq_find? _ _ hn]
    cases hfind : get_one
        ((resources.filter
          (fun x => x.rtype = BOOT_RESOURCE_TYPE.UPLOADED)).filter
          (fun b => b.name = r.name)) with
    | none => simp only [hfind, Option.none_bind]
    | some b => simp only [hfind, Option.some_bind]
  · rw [gen_loop]
    simp only [hc, if_pos]
    rw [if_neg (hc ▸ hseen)]

/-- Closed witness for C5 at a concrete input: one uploaded override,
one fresh custom item, an empty seen map. -/
theorem c5_custom_fixup_on_admission_witness :
    ((([demoResource].filter
        (fun r => r.rtype = BOOT_RESOURCE_TYPE.UPLOADED)).map
        BootResource.name).Nodup ∧
     demoCustomOS.name = "custom" ∧
     demoCustomOS ∉ (fun _ : String => ([] : List OSystem))
        demoCustomOS.name) ∧
    ((fix_custom_osystem_release_titles [demoResource] demoCustomOS).releases =
      demoCustomOS.releases.map (overrideRelease [demoResource]) ∧
     gen_loop [demoResource] (demoCustomOS :: []) (fun _ => []) =
       fix_custom_osystem_release_titles [demoResource] demoCustomOS ::
         gen_loop [demoResource] []
           (fun n => if n = demoCustomOS.name then
               (fun _ : String => ([] : List OSystem)) n ++
                 [fix_custom_osystem_release_titles [demoResource] demoCustomOS]
             else (fun _ : String => ([] : List OSystem)) n)) :=
  ⟨⟨by decide, rfl, by decide⟩,
   c5_custom_fixup_on_admission [demoResource] demoCustomOS []
     (fun _ => []) (by decide) rfl (by decide)⟩

theorem fix_release_frame (custom_resources : List BootResource)
    (r : Release) :
    (fix_release custom_resources r).name = r.name ∧
    (fix_release custom_resources r).rest = r.rest := by
  cases hfind : get_uploaded_resource_with_name custom_resources r.name with
  | none => simp [fix_release, hfind]
  | some resource =>
    cases hlk : lookupKey resource.extra "title" with
    | none => simp [fix_release, hfind, hlk]
    | some t => simp [fix_release, hfind, hlk]

theorem fix_release_id_of_none (custom_resources : List BootResource)
    (r : Release)
    (h : (get_uploaded_resource_with_name custom_resources r.name).bind
      (fun b => lookupKey b.extra "title") = none) :
    fix_release custom_resources r = r := by
  cases hfind : get_uploaded_resource_with_name custom_resources r.name with
  | none => simp [fix_release, hfind]
  | some b =>
    rw [hfind] at h
    simp only [Option.some_bind] at h
    simp [fix_release, hfind, h]

/-- C10: `fix_custom_osystem_release_titles` is frame-correct — the
osystem's name and other fields, the number of releases, and every
release's name and other fields are unchanged; and a release whose name
has no uploaded override record supplying a title keeps its value, title
included. -/
theorem c10_fixup_frame (resources : List BootResource) (os : OSystem) :
    (fix_custom_osystem_release_titles resources os).name = os.name ∧
    (fix_custom_osystem_release_titles resources os).rest = os.rest ∧
    (fix_custom_osystem_release_titles resources os).releases.length =
      os.releases.length ∧
    (∀ i : Nat,
      ((fix_custom_osystem_release_titles resources os).releases[i]?.map
        Release.name) = (os.releases[i]?.map Release.name)) ∧
    (∀ i : Nat,
      ((fix_custom_osystem_release_titles resources os).releases[i]?.map
        Release.rest) = (os.releases[i]?.map Release.rest)) ∧
    (∀ i : Nat, ∀ r : Release, os.releases[i]? = some r →
      (get_uploaded_resource_with_name
        (resources.filter
          (fun x => x.rtype = BOOT_RESOURCE_TYPE.UPLOADED)) r.name).bind
        (fun b => lookupKey b.extra "title") = none →
      (fix_custom_osystem_release_titles resources os).releases[i]? =
        some r) := by
  refine ⟨rfl, rfl, ?_, ?_, ?_, ?_⟩
  · unfold fix_custom_osystem_release_titles
    exact List.length_map _ _
  · intro i
    unfold fix_custom_osystem_release_titles
    rw [List.getElem?_map]
    cases hi : os.releases[i]? with
    | none => rfl
    | some r =>
      simp only [Option.map_some', Option.map_map]
      exact congrArg some
        (fix_release_frame
          (resources.filter
            (fun x => x.rtype = BOOT_RESOURCE_TYPE.UPLOADED)) r).1
  · intro i
    unfold fix_custom_osystem_release_titles
    rw [List.getElem?_map]
    cases hi : os.releases[i]? with
    | none => rfl
    | some r =>
      simp only [Option.map_some']
      exact congrArg some
        (fix_release_frame
          (resources.filter
            (fun x => x.rtype = BOOT_RESOURCE_TYPE.UPLOADED)) r).2
  · intro i r hi hnone
    unfold fix_custom_osystem_release_titles
    rw [List.getElem?_map, hi]
    simp only [Option.map_some']
    exact congrArg some
      (fix_release_id_of_none
        (resources.filter
          (fun x => x.rtype = BOOT_RESOURCE_TYPE.UPLOADED)) r hnone)

/-- A custom osystem item whose release name matches no uploaded
resource. -/
def demoPlainOS : OSystem := ⟨"custom", [⟨"zz", "t", []⟩], []⟩

/-- Closed witness for C10 at a concrete input: a release with no
matching override keeps its entire value. -/
theorem c10_fixup_frame_witness :
    (demoPlainOS.releases[0]? = some ⟨"zz", "t", []⟩ ∧
     (get_uploaded_resource_with_name
        ([demoResource].filter
          (fun x => x.rtype = BOOT_RESOURCE_TYPE.UPLOADED))
        (Release.mk "zz" "t" []).name).bind
        (fun b => lookupKey b.extra "title") = none) ∧
    (fix_custom_osystem_release_titles [demoResource]
        demoPlainOS).releases[0]? = some ⟨"zz", "t", []⟩ :=
  ⟨⟨by decide, by decide⟩,
   (c10_fixup_frame [demoResource] demoPlainOS).2.2.2.2.2 0
     ⟨"zz", "t", []⟩ (by decide) (by decide)⟩

/-- Modelled from the spec: a `Connection` (spec section 3) — a live
channel to one agent, identified by an agent ID (a cluster UUID); the
rest of the handle is opaque to this layer. -/
structure Connection where
  agentID : String
deriving DecidableEq, Repr

/-- Modelled from the spec: `getClientFor` / the registry's
`connectionFor` (maasserver.rpc.getClientFor, not under src) — resolve an
agent ID to its live connection, failing with `NoConnectionsAvailable`
when the registry has none for it. -/
def getClientFor (registry : List Connection) (agentID : String) :
    Except RpcError Connection :=
  match registry.find? (fun c => c.agentID = agentID) with
  | some c => Except.ok c
  | none => Except.error RpcError.NoConnectionsAvailable

/-- Modelled from the spec: the behaviour of one remote call over one
connection — it either completes after `elapsed` time units with a
payload, or fails with an error kind (remote rejection or transport
failure). -/
inductive RemoteResult (α : Type) where
  | completes (elapsed : Nat) (payload : α)
  | fails (e : RpcError)
deriving DecidableEq, Repr

/-- Modelled from the spec: `call.wait(deadline)` — block the caller
until the call completes or the deadline elapses; a completion within the
deadline returns the payload verbatim, a completion beyond it is
abandoned as a `Timeout` carrying the bound, and a failure propagates
unchanged. -/
def wait {α : Type} (deadline : Nat) (r : RemoteResult α) :
    Except RpcError α :=
  match r with
  | .completes t p =>
    if t ≤ deadline then Except.ok p
    else Except.error (RpcError.Timeout deadline)
  | .fails e => Except.error e

/-- Modelled from the spec: the bounded single-target call `callOne`
(spec section 4.4) — resolve exactly one connection via the registry,
issue the call described by the descriptor (the `invoke` oracle closes
over the descriptor's arguments), and wait up to the deadline.  The
second component counts the remote calls attempted (0 or 1). -/
def callOne {α : Type} (invoke : Connection → RemoteResult α)
    (registry : List Connection) (agentID : String) (deadline : Nat) :
    Except RpcError α × Nat :=
  match getClientFor registry agentID with
  | Except.error e => (Except.error e, 0)
  | Except.ok c => (wait deadline (invoke c), 1)

/-- `get_preseed_data` (osystems.py lines 111-136): resolve the client
for the node's nodegroup UUID, issue `GetPreseedData`, wait 30 seconds,
and extract the `data` key of the response mapping. -/
def get_preseed_data {V : Type}
    (invoke : Connection → RemoteResult (List (String × V)))
    (registry : List Connection) (uuid : String) :
    Except RpcError (Option V) × Nat :=
  let out := callOne invoke registry uuid 30
  (out.1.map (fun payload => lookupVal payload "data"), out.2)
where
  lookupVal (payload : List (String × V)) (k : String) : Option V :=
    (payload.find? (fun p => p.1 = k)).map (fun p => p.2)

/-- `compose_curtin_network_preseed` (osystems.py lines 139-175): resolve
the client for the node's nodegroup UUID, issue
`ComposeCurtinNetworkPreseed`, wait 30 seconds, and extract the `data`
key of the response mapping. -/
def compose_curtin_network_preseed {V : Type}
    (invoke : Connection → RemoteResult (List (String × V)))
    (registry : List Connection) (uuid : String) :
    Except RpcError (Option V) × Nat :=
  let out := callOne invoke registry uuid 30
  (out.1.map (fun payload => lookupVal payload "data"), out.2)
where
  lookupVal (payload : List (String × V)) (k : String) : Option V :=
    (payload.find? (fun p => p.1 = k)).map (fun p => p.2)

/-- `validate_license_key_for` (osystems.py lines 178-199): resolve the
client for the nodegroup UUID, issue `ValidateLicenseKey`, wait 30
seconds, and extract the `is_valid` key of the response mapping. -/
def validate_license_key_for {V : Type}
    (invoke : Connection → RemoteResult (List (String × V)))
    (registry : List Connection) (uuid : String) :
    Except RpcError (Option V) × Nat :=
  let out := callOne invoke registry uuid 30
  (out.1.map (fun payload => lookupVal payload "is_valid"), out.2)
where
  lookupVal (payload : List (String × V)) (k : String) : Option V :=
    (payload.find? (fun p => p.1 = k)).map (fun p => p.2)

/-- C6: when the registry holds no live connection for the requested
agent, each of the three bounded single-target operations fails with
`NoConnectionsAvailable` and attempts zero remote calls. -/
theorem c6_no_connection_fails_without_call {V : Type}
    (invoke1 invoke2 invoke3 : Connection → RemoteResult (List (String × V)))
    (registry : List Connection) (uuid : String)
    (h : registry.find? (fun c => c.agentID = uuid) = none) :
    get_preseed_data invoke1 registry uuid =
      (Except.error RpcError.NoConnectionsAvailable, 0) ∧
    compose_curtin_network_preseed invoke2 registry uuid =
      (Except.error RpcError.NoConnectionsAvailable, 0) ∧
    validate_license_key_for invoke3 registry uuid =
      (Except.error RpcError.NoConnectionsAvailable, 0) := by
  unfold get_preseed_data compose_curtin_network_preseed
    validate_license_key_for callOne getClientFor
  rw [h]
  exact ⟨rfl, rfl, rfl⟩

/-- Closed witness for C6 at a concrete input: the empty registry. -/
theorem c6_no_connection_fails_without_call_witness :
    (List.find? (fun c => c.agentID = "uuid-1") ([] : List Connection) =
      none) ∧
    (get_preseed_data (V := Bool)
        (fun _ => RemoteResult.fails RpcError.TransportFailure) [] "uuid-1" =
      (Except.error RpcError.NoConnectionsAvailable, 0) ∧
     compose_curtin_network_preseed (V := Bool)
        (fun _ => RemoteResult.fails RpcError.TransportFailure) [] "uuid-1" =
      (Except.error RpcError.NoConnectionsAvailable, 0) ∧
     validate_license_key_for (V := Bool)
        (fun _ => RemoteResult.fails RpcError.TransportFailure) [] "uuid-1" =
      (Except.error RpcError.NoConnectionsAvailable, 0)) :=
  ⟨rfl,
   c6_no_connection_fails_without_call
     (fun _ => RemoteResult.fails RpcError.TransportFailure)
     (fun _ => RemoteResult.fails RpcError.TransportFailure)
     (fun _ => RemoteResult.fails RpcError.TransportFailure) [] "uuid-1" rfl⟩

/-- C7: once the single connection is resolved, the bounded call blocks
on exactly that call and reflects its outcome — a completion within the
deadline returns the payload verbatim, a completion beyond the deadline
becomes a `Timeout` carrying the bound, and every failure kind (remote
rejection or transport failure) propagates to the caller unsuppressed. -/
theorem c7_bounded_call_outcomes {α : Type}
    (invoke : Connection → RemoteResult α) (registry : List Connection)
    (uuid : String) (d : Nat) (c : Connection)
    (hc : getClientFor registry uuid = Except.ok c) :
    (∀ t p, invoke c = RemoteResult.completes t p → t ≤ d →
      callOne invoke registry uuid d = (Except.ok p, 1)) ∧
    (∀ t p, invoke c = RemoteResult.completes t p → d < t →
      callOne invoke registry uuid d =
        (Except.error (RpcError.Timeout d), 1)) ∧
    (∀ e, invoke c = RemoteResult.fails e →
      callOne invoke registry uuid d = (Except.error e, 1)) := by
  have h1 : callOne invoke registry uuid d = (wait d (invoke c), 1) := by
    unfold callOne
    rw [hc]
  refine ⟨?_, ?_, ?_⟩
  · intro t p hi ht
    rw [h1, hi]
    show ((if t ≤ d then Except.ok p
        else Except.error (RpcError.Timeout d) : Except RpcError α), 1) =
      (Except.ok p, 1)
    rw [if_pos ht]
  · intro t p hi ht
    rw [h1, hi]
    show ((if t ≤ d then Except.ok p
        else Except.error (RpcError.Timeout d) : Except RpcError α), 1) =
      (Except.error (RpcError.Timeout d), 1)
    rw [if_neg (Nat.not_le_of_lt ht)]
  · intro e hi
    rw [h1, hi]
    rfl

/-- Closed witness for C7 at a concrete input: a one-entry registry and a
call completing at time 5 with payload 7, under deadline 30. -/
theorem c7_bounded_call_outcomes_witness :
    (getClientFor [Connection.mk "uuid-1"] "uuid-1" =
      Except.ok (Connection.mk "uuid-1") ∧
     (fun _ : Connection => RemoteResult.completes 5 (7 : Nat))
        (Connection.mk "uuid-1") = RemoteResult.completes 5 7 ∧
     5 ≤ 30) ∧
    callOne (fun _ : Connection => RemoteResult.completes 5 (7 : Nat))
        [Connection.mk "uuid-1"] "uuid-1" 30 = (Except.ok 7, 1) :=
  ⟨⟨rfl, rfl, by decide⟩,
   (c7_bounded_call_outcomes
      (fun _ => RemoteResult.completes 5 7) [Connection.mk "uuid-1"]
      "uuid-1" 30 (Connection.mk "uuid-1") rfl).1 5 7 rfl (by decide)⟩

/-- Modelled from the spec: one settle step of a fan-out round — when a
dispatched call on the connection at index `i` settles, its outcome is
written into slot `i` of the round state. -/
def settle_step {α : Type} (invoke : Connection → Outcome α)
    (connections : List Connection)
    (acc : List (Option (Outcome α))) (i : Nat) :
    List (Option (Outcome α)) :=
  match connections[i]? with
  | some c => acc.set i (some (invoke c))
  | none => acc

/-- Modelled from the spec: the Outcome Set lifecycle of one fan-out
round (spec section 3) — created with one empty slot per connection,
populated incrementally as the calls settle in an arbitrary completion
order `order` (a list of indices), one slot per connection. -/
def settle_round {α : Type} (invoke : Connection → Outcome α)
    (connections : List Connection) (order : List Nat) :
    List (Option (Outcome α)) :=
  order.foldl (settle_step invoke connections)
    (List.replicate connections.length none)

/-- Modelled from the spec: `dispatch` / `async.gather`
(maasserver.utils.async, not under src) — run the round to completion and
freeze the round state into the Outcome Set handed to the caller. -/
def dispatch {α : Type} (invoke : Connection → Outcome α)
    (connections : List Connection) (order : List Nat) :
    List (Outcome α) :=
  (settle_round invoke connections order).reduceOption

theorem settle_fold_length {α : Type} (invoke : Connection → Outcome α)
    (connections : List Connection) (order : List Nat)
    (acc : List (Option (Outcome α))) :
    (order.foldl (settle_step invoke connections) acc).length =
      acc.length := by
  induction order generalizing acc with
  | nil => rfl
  | cons j rest ih =>
    rw [List.foldl_cons, ih]
    unfold settle_step
    cases connections[j]? with
    | none => rfl
    | some c => exact List.length_set _ _ _

theorem settle_fold_untouched {α : Type} (invoke : Connection → Outcome α)
    (connections : List Connection) (order : List Nat)
    (acc : List (Option (Outcome α))) (i : Nat) (hi : i ∉ order) :
    (order.foldl (settle_step invoke connections) acc)[i]? = acc[i]? := by
  induction order generalizing acc with
  | nil => rfl
  | cons j rest ih =>
    rw [List.mem_cons] at hi
    push_neg at hi
    rw [List.foldl_cons, ih _ hi.2]
    unfold settle_step
    cases connections[j]? with
    | none => rfl
    | some c => exact List.getElem?_set_ne (fun hj => hi.1 hj.symm)

theorem settle_fold_touched {α : Type} (invoke : Connection → Outcome α)
    (connections : List Connection) (order : List Nat)
    (acc : List (Option (Outcome α))) (i : Nat) (c : Connection)
    (hacc : acc.length = connections.length)
    (hc : connections[i]? = some c) (hi : i ∈ order) :
    (order.foldl (settle_step invoke connections) acc)[i]? =
      some (some (invoke c)) := by
  induction order generalizing acc with
  | nil => exact absurd hi (List.not_mem_nil i)
  | cons j rest ih =>
    rw [List.foldl_cons]
    have hstep : ∀ a : List (Option (Outcome α)),
        (settle_step invoke connections a j).length = a.length := by
      intro a
      unfold settle_step
      cases connections[j]? with
      | none => rfl
      | some x => exact List.length_set _ _ _
    by_cases hij : i = j
    · subst hij
      have hset : (settle_step invoke connections acc i)[i]? =
          some (some (invoke c)) := by
        unfold settle_step
        rw [hc]
        exact List.getElem?_set_eq_of_lt _ (by
          rw [hacc]
          exact (List.getElem?_eq_some.mp hc).1)
      by_cases hrest : i ∈ rest
      · exact ih _ (by rw [hstep, hacc]) hrest
      · rw [settle_fold_untouched invoke connections rest _ i hrest, hset]
    · have hrest : i ∈ rest := by
        rcases List.mem_cons.mp hi with h1 | h2
        · exact absurd h1 hij
        · exact h2
      exact ih _ (by rw [hstep, hacc]) hrest

theorem reduceOption_map_some {α : Type} (l : List α) :
    (l.map some).reduceOption = l := by
  induction l with
  | nil => rfl
  | cons a rest ih => simp [List.reduceOption_cons_of_some, ih]

/-- C8: a fan-out round in which every dispatched call eventually settles
— in any completion order — yields an Outcome Set that is exactly the
input connections mapped to their outcomes: its length equals the number
of connections, slot `i` holds connection `i`'s outcome regardless of
completion order, a round over zero connections yields the empty Outcome
Set, and any one connection's `Failure` outcome leaves every sibling's
slot intact. -/
theorem c8_dispatch_settles_all_positionally {α : Type}
    (invoke : Connection → Outcome α) (connections : List Connection)
    (order : List Nat)
    (hall : ∀ i ∈ List.range connections.length, i ∈ order) :
    dispatch invoke connections order = connections.map invoke ∧
    (dispatch invoke connections order).length = connections.length ∧
    dispatch invoke ([] : List Connection) order = [] ∧
    (∀ i : Nat, ∀ c : Connection, connections[i]? = some c →
      (dispatch invoke connections order)[i]? = some (invoke c)) := by
  have hround : settle_round invoke connections order =
      (connections.map invoke).map some := by
    unfold settle_round
    apply List.ext_getElem?
    intro n
    by_cases hn : n < connections.length
    · have hc : connections[n]? = some connections[n] :=
        List.getElem?_eq_getElem hn
      rw [settle_fold_touched invoke connections order _ n connections[n]
        (List.length_replicate _ _) hc (hall n (List.mem_range.mpr hn))]
      rw [List.getElem?_map, List.getElem?_map,
        List.getElem?_eq_getElem hn]
      rfl
    · have h1 : (order.foldl (settle_step invoke connections)
          (List.replicate connections.length none))[n]? = none := by
        apply List.getElem?_eq_none
        rw [settle_fold_length, List.length_replicate]
        exact Nat.le_of_not_lt hn
      have h2 : (((connections.map invoke).map some) : List _)[n]? = none := by
        apply List.getElem?_eq_none
        rw [List.length_map, List.length_map]
        exact Nat.le_of_not_lt hn
      rw [h1, h2]
  have hmain : dispatch invoke connections order = connections.map invoke := by
    unfold dispatch
    rw [hround, reduceOption_map_some]
  refine ⟨hmain, ?_, ?_, ?_⟩
  · rw [hmain, List.length_map]
  · unfold dispatch settle_round
    have : ∀ o : List Nat,
        o.foldl (settle_step invoke ([] : List Connection))
          (List.replicate (0 : Nat) none) = [] := by
      intro o
      induction o with
      | nil => rfl
      | cons j rest ih => rw [List.foldl_cons]; exact ih
    rw [List.length_nil, this]
    rfl
  · intro i c hc
    rw [hmain, List.getElem?_map, hc]
    rfl

/-- A fan-out oracle for the C8 witness: agent `a` answers, agent `b`
fails at the transport layer. -/
def demoInvoke : Connection → Outcome Nat :=
  fun c => if c.agentID = "a" then Outcome.Success 1
    else Outcome.Failure RpcError.TransportFailure

/-- Closed witness for C8 at a concrete input: two connections settling
out of input order (completion order `[1, 0, 1]` covers both slots). -/
theorem c8_dispatch_settles_all_positionally_witness :
    (∀ i ∈ List.range
        ([Connection.mk "a", Connection.mk "b"] : List Connection).length,
      i ∈ [1, 0, 1]) ∧
    dispatch demoInvoke [Connection.mk "a", Connection.mk "b"] [1, 0, 1] =
      ([Connection.mk "a", Connection.mk "b"] : List Connection).map
        demoInvoke :=
  ⟨by decide,
   (c8_dispatch_settles_all_positionally demoInvoke
      [Connection.mk "a", Connection.mk "b"] [1, 0, 1] (by decide)).1⟩

end Osystems
